import Mathlib

/-!
Verification of the DATAGerry object-engine specification against a shallow
embedding of the repository's route and manager code.

The embedding covers:
* the semantic-version bump tier chosen by `update_object`
  (objects_routes.py, lines 537-547);
* the payload/field merge of `update_object` (lines 510-517);
* `insert_object` (lines 85-100);
* `get_unstructured_objects` (lines 459-465) and
  `update_unstructured_objects` (lines 680-710);
* `delete_object` (lines 733-778), `delete_object_with_child_objects`
  (lines 861-895) and `delete_many_objects` (lines 916-986);
* `CmdbObjectManager.get_object_references` (cmdb_object_manager.py,
  lines 230-259);
* `UserManager.delete` (user_manager.py, lines 136-157).

Mongo documents are embedded as Lean structures; the Mongo store becomes a
list of such structures, and each route becomes a pure function from the
store state (plus the request data) to a result together with the new state.
Helpers of this repository that are not part of the provided sources
(the locations manager and the type-schema field helper) are modelled from
the specification and are marked as such in their doc comments.
-/

/- ------------------------------------------------------------------ -/
/- Shared data model                                                  -/
/- ------------------------------------------------------------------ -/

/-- Value stored in an object field.  At storage level values are untyped;
the embedding distinguishes the null value, integer values and string
values, which is what the routes under verification inspect. -/
inductive FieldValue where
  | vnull : FieldValue
  | vint (n : Int) : FieldValue
  | vstr (s : String) : FieldValue
  deriving DecidableEq, Repr

/-- An object field: a name/value pair, as stored on a CmdbObject. -/
structure ObjectField where
  name : String
  value : FieldValue
  deriving DecidableEq, Repr

/- ------------------------------------------------------------------ -/
/- C1: version bump tier (objects_routes.py, update_object 537-547)   -/
/- ------------------------------------------------------------------ -/

/-- Version bump tier, mirroring the constants VERSIONING_MAJOR,
VERSIONING_MINOR and VERSIONING_PATCH used by `update_object`. -/
inductive VersionTier where
  | major : VersionTier
  | minor : VersionTier
  | patch : VersionTier
  deriving DecidableEq, Repr

/-- Tier selection of `update_object` (objects_routes.py 540-547):
`c` is `len(changes[new])` and `n` is `len(update_object_instance.fields)`.
Python's `/` is exact division, so the third guard `c > n / 2` is embedded
as a comparison over the rationals. -/
def bumpTier (c n : Nat) : VersionTier :=
  if c = 1 then VersionTier.patch
  else if c = n then VersionTier.major
  else if ((n : ℚ) / 2 < (c : ℚ)) then VersionTier.minor
  else VersionTier.patch

/- ------------------------------------------------------------------ -/
/- C8: insert_object (objects_routes.py 85-100)                       -/
/- ------------------------------------------------------------------ -/

/-- Request payload of `insert_object` after JSON decoding: the keys the
route inspects.  `public_id`, `active` and `version` may or may not be
present in the posted document. -/
structure NewObjectData where
  public_id : Option Nat
  active : Option Bool
  version : Option String
  type_id : Nat
  deriving DecidableEq, Repr

/-- A stored CmdbObject document as far as `insert_object` shapes it. -/
structure StoredObject where
  public_id : Nat
  active : Bool
  views : Nat
  version : String
  type_id : Nat
  deriving DecidableEq, Repr

/-- Embedding of `insert_object` (objects_routes.py 85-104): when no
public_id is posted a fresh one is allocated; when one is posted and an
object with that id already exists the route aborts with 400; the fields
`active` (default true), `views := 0` and `version := "1.0.0"` are then
set — the version assignment is unconditional — and the object is stored.
Returns the new store and the id the route responds with. -/
def insertObjectRoute (d : NewObjectData) (store : List StoredObject)
    (next_id : Nat) : Except Nat (List StoredObject × Nat) :=
  match d.public_id with
  | none =>
      Except.ok
        (store ++ [⟨next_id, d.active.getD true, 0, "1.0.0", d.type_id⟩],
         next_id)
  | some p =>
      if store.any (fun o => o.public_id == p) then Except.error 400
      else
        Except.ok
          (store ++ [⟨p, d.active.getD true, 0, "1.0.0", d.type_id⟩], p)

/- ------------------------------------------------------------------ -/
/- C10: UserManager.delete (user_manager.py 136-157)                  -/
/- ------------------------------------------------------------------ -/

/-- A stored user document; `UserManager.delete` only inspects the
public_id. -/
structure UserRec where
  public_id : Nat
  user_name : String
  deriving DecidableEq, Repr

/-- Errors raised by `UserManager.delete`. -/
inductive UserManagerError where
  | managerGetError : UserManagerError
  | managerDeleteError : UserManagerError
  deriving DecidableEq, Repr

/-- Embedding of `UserManager.delete` (user_manager.py 150-157):
public_id 1 is rejected with ManagerDeleteError before the lookup; then
the user is looked up (ManagerGetError when absent), deleted from the
collection, and a zero deleted-count raises ManagerDeleteError.  The pair
returned is the outcome together with the user store after the call. -/
def userDelete (pid : Nat) (store : List UserRec) :
    Except UserManagerError UserRec × List UserRec :=
  if pid ∈ [1] then (Except.error UserManagerError.managerDeleteError, store)
  else
    match store.find? (fun u => u.public_id == pid) with
    | none => (Except.error UserManagerError.managerGetError, store)
    | some u =>
        let store' := store.eraseP (fun x => x.public_id == pid)
        if store.length - store'.length = 0 then
          (Except.error UserManagerError.managerDeleteError, store')
        else (Except.ok u, store')

/- ------------------------------------------------------------------ -/
/- C9: field merge of update_object (objects_routes.py 510-517)       -/
/- ------------------------------------------------------------------ -/

/-- One step of the merge loop of `update_object`: the payload field
`item` overwrites the value of `old` when the names coincide, and leaves
`old` untouched otherwise. -/
def overwriteField (item old : ObjectField) : ObjectField :=
  if old.name == item.name then { old with value := item.value } else old

/-- Embedding of the field merge of `update_object` (objects_routes.py
510-517): `old_fields` is the rendered current object's name/value list,
and for every payload field each identically-named old field has its value
replaced; the result becomes the persisted field list. -/
def mergeFields (olds news : List ObjectField) : List ObjectField :=
  news.foldl (fun acc item => acc.map (overwriteField item)) olds

/- ------------------------------------------------------------------ -/
/- C6: get_unstructured_objects (objects_routes.py 459-465)           -/
/- ------------------------------------------------------------------ -/

/-- A field definition of a type schema: its name and, when the schema
carries one, a default value (the `value` key of the field document). -/
structure TypeField where
  name : String
  default : Option FieldValue
  deriving DecidableEq, Repr

/-- A stored CmdbObject document as the structural-repair routes see it:
its id, its type id, and its field list. -/
structure CmdbObjectRec where
  public_id : Nat
  type_id : Nat
  fields : List ObjectField
  deriving DecidableEq, Repr

/-- Embedding of the Python builtin `sorted` on a list of names. -/
def sortedNames (l : List String) : List String :=
  l.insertionSort (· ≤ ·)

/-- Embedding of `get_unstructured_objects` (objects_routes.py 448-465):
fetch the objects of the type, and keep those whose sorted field-name
list differs from the type's sorted field-name list. -/
def getUnstructuredObjects (typeFields : List TypeField)
    (store : List CmdbObjectRec) (type_pid : Nat) : List CmdbObjectRec :=
  let tf := sortedNames (typeFields.map (fun f => f.name))
  (store.filter (fun o => o.type_id == type_pid)).filter
    (fun o => !(sortedNames (o.fields.map (fun f => f.name)) == tf))

/- ------------------------------------------------------------------ -/
/- C7: update_unstructured_objects (objects_routes.py 680-710)        -/
/- ------------------------------------------------------------------ -/

/-- Name list `incorrect` of the repair pass (objects_routes.py 684-690):
for every type field, every object field with a different name contributes
its name. -/
def repairIncorrect (tf : List TypeField) (of : List ObjectField) :
    List String :=
  tf.flatMap (fun t =>
    (of.filter (fun f => !(f.name == t.name))).map (fun f => f.name))

/-- Name list `correct` of the repair pass (objects_routes.py 684-690):
for every type field, every object field with the same name contributes
its name. -/
def repairCorrect (tf : List TypeField) (of : List ObjectField) :
    List String :=
  tf.flatMap (fun t =>
    (of.filter (fun f => f.name == t.name)).map (fun f => f.name))

/-- The list `removed_type_fields` (objects_routes.py 691): names that
appear in `incorrect` but not in `correct`. -/
def repairRemoved (tf : List TypeField) (of : List ObjectField) :
    List String :=
  (repairIncorrect tf of).filter (fun x => !(repairCorrect tf of).contains x)

/-- First pass of the repair (objects_routes.py 692-694): every field
whose name is in `removed_type_fields` is pulled from the object. -/
def repairPhase1 (tf : List TypeField) (of : List ObjectField) :
    List ObjectField :=
  of.filter (fun f => !(repairRemoved tf of).contains f.name)

/-- Mongo `$addToSet` on the `fields` array: append the document unless an
identical one is already present. -/
def addToSetField (fields : List ObjectField) (d : ObjectField) :
    List ObjectField :=
  if fields.contains d then fields else fields ++ [d]

/-- One iteration of the second repair pass (objects_routes.py 699-710):
when the freshly fetched object (`base`) has no field with the type
field's name, a field carrying the type's default value (`value` key,
None when absent) is added with `$addToSet`. -/
def repairStep (base acc : List ObjectField) (t : TypeField) :
    List ObjectField :=
  if base.any (fun f => f.name == t.name) then acc
  else addToSetField acc ⟨t.name, t.default.getD FieldValue.vnull⟩

/-- Second pass of the repair over all type fields; the membership check
reads the in-memory object fetched after the first pass while the adds
accumulate in the stored document. -/
def repairPhase2 (tf : List TypeField) (base : List ObjectField) :
    List ObjectField :=
  tf.foldl (repairStep base) base

/-- Full effect of `update_unstructured_objects` on one object's field
list: the pull pass followed by the add pass. -/
def repairObject (tf : List TypeField) (of : List ObjectField) :
    List ObjectField :=
  repairPhase2 tf (repairPhase1 tf of)

/-- Embedding of `update_unstructured_objects` (objects_routes.py
668-710): both passes run over every stored object of the type. -/
def updateUnstructuredObjects (tf : List TypeField)
    (store : List CmdbObjectRec) (pid : Nat) : List CmdbObjectRec :=
  let s1 := store.map (fun o =>
    if o.type_id == pid then { o with fields := repairPhase1 tf o.fields }
    else o)
  s1.map (fun o =>
    if o.type_id == pid then { o with fields := repairPhase2 tf o.fields }
    else o)

/- ------------------------------------------------------------------ -/
/- C5: get_object_references (cmdb_object_manager.py 230-259)         -/
/- ------------------------------------------------------------------ -/

/-- A field definition of a type schema as `get_object_references`
inspects it: the `name`, `type` and `ref_types` keys of the field
document. -/
structure SchemaField where
  name : String
  ftype : String
  ref_types : List Nat
  deriving DecidableEq, Repr

/-- A type schema document: its public_id and its field definitions. -/
structure TypeSchema where
  public_id : Nat
  fields : List SchemaField
  deriving DecidableEq, Repr

/-- State read by `get_object_references`: the object collection and the
type collection. -/
structure RefState where
  objects : List CmdbObjectRec
  types : List TypeSchema
  deriving DecidableEq, Repr

/-- Modelled from the spec: `CmdbType.get_field_of_type_with_value`
(cmdb_type.py is not among the provided sources).  As invoked by
`get_object_references` — `input_type='ref'`, `_filter='ref_types'`,
`value=type_id` — it yields one field of kind `ref` whose allowed-target
list contains the given type id, raising when there is none; the
embedding returns the first such field in schema order. -/
def get_field_of_type_with_value (t : TypeSchema) (type_id : Nat) :
    Option SchemaField :=
  t.fields.find? (fun f => f.ftype == "ref" && f.ref_types.contains type_id)

/-- Mongo predicate of the per-type object query of
`get_object_references` (cmdb_object_manager.py 254-256): same type id,
and some field carrying the found field name whose value equals the
queried id in int or in string form. -/
def refObjectMatches (tid : Nat) (fname : String) (public_id : Nat)
    (o : CmdbObjectRec) : Bool :=
  o.type_id == tid &&
    o.fields.any (fun f => f.name == fname &&
      (f.value == FieldValue.vint (Int.ofNat public_id) ||
       f.value == FieldValue.vstr (toString public_id)))

/-- Embedding of `CmdbObjectManager.get_object_references`
(cmdb_object_manager.py 230-259): the queried object's type id is read
(error when the object is absent); the types owning a `ref` field whose
`ref_types` contains that type id are collected; from each such type one
reference field is taken with `get_field_of_type_with_value` (types where
this raises are skipped); and the objects of each collected type matching
the queried id on that field are accumulated, each batch sorted by
public_id as `get_objects_by` sorts. -/
def get_object_references (public_id : Nat) (s : RefState) :
    Except Unit (List CmdbObjectRec) :=
  match s.objects.find? (fun o => o.public_id == public_id) with
  | none => Except.error ()
  | some obj =>
      let type_id := obj.type_id
      let req_type_list := s.types.filter (fun t =>
        t.fields.any (fun f =>
          f.ftype == "ref" && f.ref_types.contains type_id))
      let type_init_list := req_type_list.filterMap (fun t =>
        (get_field_of_type_with_value t type_id).map
          (fun f => (t.public_id, f.name)))
      Except.ok (type_init_list.foldl (fun acc p =>
        acc ++ ((s.objects.filter (refObjectMatches p.1 p.2
          public_id)).insertionSort (fun a b => a.public_id ≤ b.public_id)))
        [])

/- ------------------------------------------------------------------ -/
/- C2, C3, C4: delete routes (objects_routes.py 720-991)              -/
/- ------------------------------------------------------------------ -/

/-- An object-link document (primary/secondary directed edge). -/
structure CmdbLink where
  public_id : Nat
  primary : Nat
  secondary : Nat
  deriving DecidableEq, Repr

/-- Modelled from the spec: a location document (cmdb_location.py is not
among the provided sources) — identifier, parent identifier, and the
identifier of the object the location is bound to 1:1. -/
structure LocationRec where
  public_id : Nat
  parent : Nat
  object_id : Nat
  deriving DecidableEq, Repr

/-- Store state read and written by the delete routes: the object, type,
location and object-link collections.  The type collection is only
consulted for existence, so it is the list of present type ids. -/
structure DelState where
  objects : List CmdbObjectRec
  types : List Nat
  locations : List LocationRec
  links : List CmdbLink
  deriving DecidableEq, Repr

/-- Modelled from the spec: `LocationsManager.get_location_for_object` —
the location bound to the given object, none when the object carries no
location (the callers catch the manager error in that case). -/
def getLocationForObject (pid : Nat) (locs : List LocationRec) :
    Option LocationRec :=
  locs.find? (fun l => l.object_id == pid)

/-- Modelled from the spec: `locations_manager.get_one_by` with the
filter `parent = pid` — some direct child location, none when the
children list is empty. -/
def getChildByParent (pid : Nat) (locs : List LocationRec) :
    Option LocationRec :=
  locs.find? (fun l => l.parent == pid)

/-- Modelled from the spec: iterative layer of `AllDescendants` — the
direct children of the frontier, then the descendants of those children
among the remaining snapshot; the fuel bounds the recursion by the
snapshot size. -/
def getAllChildrenAux (fuel : Nat) (frontier : List Nat)
    (locs : List LocationRec) : List LocationRec :=
  match fuel with
  | 0 => []
  | fuel + 1 =>
      let direct := locs.filter (fun l => frontier.contains l.parent)
      match direct with
      | [] => []
      | _ =>
          direct ++ getAllChildrenAux fuel (direct.map (fun l => l.public_id))
            (locs.filter (fun l => !(frontier.contains l.parent)))

/-- Modelled from the spec: `LocationsManager.get_all_children` — the
full descendant set of a location, computed by traversal over the
caller-supplied one-shot snapshot of all locations. -/
def get_all_children (pid : Nat) (locs : List LocationRec) :
    List LocationRec :=
  getAllChildrenAux (locs.length + 1) [pid] locs

/-- Store calls a delete route performs, in program order: object-link
deletion, reference cleanup (`delete_all_object_references`), the
one-shot load of the location snapshot, a location deletion, and an
object deletion. -/
inductive DelEv where
  | delLink (id : Nat) : DelEv
  | delRefs (oid : Nat) : DelEv
  | loadLocations : DelEv
  | delLoc (id : Nat) : DelEv
  | delObj (id : Nat) : DelEv
  deriving DecidableEq, Repr

/-- An event that deletes or mutates stored data (everything except the
snapshot load). -/
def isDeletionEv : DelEv → Bool
  | DelEv.loadLocations => false
  | _ => true

/-- An event deleting a location or an object. -/
def isStructuralDeletionEv : DelEv → Bool
  | DelEv.delLoc _ => true
  | DelEv.delObj _ => true
  | _ => false

/-- Outcome of a single-object delete route: success or an HTTP error
status. -/
inductive RouteResult where
  | ok : RouteResult
  | err (code : Nat) : RouteResult
  deriving DecidableEq, Repr

/-- Embedding of `delete_object` (objects_routes.py 720-794), returning
the HTTP outcome, the state after the call, and the trace of store calls:
look the object up (404 when absent); delete its object links
(`delete_object_links`, lines 1010-1024) and its references; load the
type (404 when absent) and render; then, when the object has a location
with at least one child location, answer 405; otherwise delete the
location (when there is one) and the object. -/
def deleteObjectRoute (pid : Nat) (s : DelState) :
    RouteResult × DelState × List DelEv :=
  match s.objects.find? (fun o => o.public_id == pid) with
  | none => (RouteResult.err 404, s, [])
  | some obj =>
      let dead := s.links.filter
        (fun l => l.primary == pid || l.secondary == pid)
      let keptLinks := s.links.filter
        (fun l => !(l.primary == pid || l.secondary == pid))
      let s1 : DelState := { s with links := keptLinks }
      let evs := dead.map (fun l => DelEv.delLink l.public_id) ++
        [DelEv.delRefs pid]
      if s1.types.contains obj.type_id then
        match getLocationForObject pid s1.locations with
        | some loc =>
            match getChildByParent loc.public_id s1.locations with
            | some _ => (RouteResult.err 405, s1, evs)
            | none =>
                let keptLocs := s1.locations.filter
                  (fun l => !(l.public_id == loc.public_id))
                let s2 := { s1 with locations := keptLocs }
                let keptObjs := s2.objects.filter
                  (fun o => !(o.public_id == pid))
                let s3 := { s2 with objects := keptObjs }
                (RouteResult.ok, s3,
                 evs ++ [DelEv.delLoc loc.public_id, DelEv.delObj pid])
        | none =>
            let keptObjs := s1.objects.filter
              (fun o => !(o.public_id == pid))
            let s3 := { s1 with objects := keptObjs }
            (RouteResult.ok, s3, evs ++ [DelEv.delObj pid])
      else (RouteResult.err 404, s1, evs)

/-- Embedding of `delete_object_with_child_objects` (objects_routes.py
846-908): look the object up (404 when absent); delete its links and
references; find its location (404 when absent); load the one-shot
snapshot of all locations with public_id > 1 and compute the descendant
set; delete each descendant location while collecting its bound object
id; delete those child objects; delete the target's location; delete the
target object last. -/
def deleteObjectWithChildObjectsRoute (pid : Nat) (s : DelState) :
    RouteResult × DelState × List DelEv :=
  match s.objects.find? (fun o => o.public_id == pid) with
  | none => (RouteResult.err 404, s, [])
  | some _obj =>
      let dead := s.links.filter
        (fun l => l.primary == pid || l.secondary == pid)
      let keptLinks := s.links.filter
        (fun l => !(l.primary == pid || l.secondary == pid))
      let s1 : DelState := { s with links := keptLinks }
      let evs0 := dead.map (fun l => DelEv.delLink l.public_id) ++
        [DelEv.delRefs pid]
      match getLocationForObject pid s1.locations with
      | none => (RouteResult.err 404, s1, evs0)
      | some loc =>
          let snapshot := s1.locations.filter (fun l => 1 < l.public_id)
          let children := get_all_children loc.public_id snapshot
          let childObjIds := children.map (fun c => c.object_id)
          let locs2 := s1.locations.filter
            (fun l => !(children.any (fun c => c.public_id == l.public_id)))
          let s2 := { s1 with locations := locs2 }
          let objs3 := s2.objects.filter
            (fun o => !(childObjIds.contains o.public_id))
          let s3 := { s2 with objects := objs3 }
          let locs4 := s3.locations.filter
            (fun l => !(l.public_id == loc.public_id))
          let s4 := { s3 with locations := locs4 }
          let objs5 := s4.objects.filter
            (fun o => !(o.public_id == pid))
          let s5 := { s4 with objects := objs5 }
          (RouteResult.ok, s5,
           evs0 ++ [DelEv.loadLocations] ++
             children.map (fun c => DelEv.delLoc c.public_id) ++
             childObjIds.map (fun i => DelEv.delObj i) ++
             [DelEv.delLoc loc.public_id, DelEv.delObj pid])

/-- Outcome of `delete_many_objects`: the success response carrying the
list of delete acknowledgments, or an HTTP error abort; both paired with
the state after the call. -/
inductive DelManyResult where
  | ok (successfully : List Nat) (s : DelState) : DelManyResult
  | err (code : Nat) (s : DelState) : DelManyResult
  deriving DecidableEq, Repr

/-- Per-object loop of `delete_many_objects` (objects_routes.py 943-984):
for each fetched object its links and references are removed, its type is
loaded for the render (a missing type aborts the whole request with 404),
the object is deleted, and the acknowledgment is appended. -/
def deleteManyLoop (objs : List CmdbObjectRec) (s : DelState)
    (ack : List Nat) : DelManyResult :=
  match objs with
  | [] => DelManyResult.ok ack s
  | o :: rest =>
      let keptLinks := s.links.filter
        (fun l => !(l.primary == o.public_id || l.secondary == o.public_id))
      let s1 : DelState := { s with links := keptLinks }
      if s1.types.contains o.type_id then
        let keptObjs := s1.objects.filter
          (fun x => !(x.public_id == o.public_id))
        let s2 := { s1 with objects := keptObjs }
        deleteManyLoop rest s2 (ack ++ [o.public_id])
      else DelManyResult.err 404 s1

/-- Embedding of `delete_many_objects` (objects_routes.py 911-991): the
objects whose public_id is among the requested ids are fetched (absent
ids simply yield no document), sorted by public_id; when any of them has
a location the request is answered 405 before deleting anything;
otherwise the per-object loop runs and the response carries only the
`successfully` acknowledgment list. -/
def deleteManyObjectsRoute (ids : List Nat) (s : DelState) :
    DelManyResult :=
  let found := (s.objects.filter
    (fun o => ids.contains o.public_id)).insertionSort
    (fun a b => a.public_id ≤ b.public_id)
  if found.any
      (fun o => (getLocationForObject o.public_id s.locations).isSome) then
    DelManyResult.err 405 s
  else deleteManyLoop found s []

/-- Concrete store for the C3 counterexample: object 5 (type 1) bound to
location 10, which has the child location 11 bound to object 6, and one
object link 100 between 5 and 6. -/
def c3State : DelState :=
  ⟨[⟨5, 1, []⟩, ⟨6, 1, []⟩], [1], [⟨10, 1, 5⟩, ⟨11, 10, 6⟩],
   [⟨100, 5, 6⟩]⟩

/-- Concrete store for C4: object 5 bound to location 10 whose child
location 11 is bound to object 6, plus one object link on 5. -/
def c4State : DelState :=
  ⟨[⟨5, 1, []⟩, ⟨6, 1, []⟩], [1], [⟨10, 1, 5⟩, ⟨11, 10, 6⟩],
   [⟨100, 5, 6⟩]⟩

/-- Concrete store for the C2 counterexample: objects 1, 2, 3 requested;
object 2's type (2) is absent from the type collection, so processing
object 2 fails. -/
def c2State : DelState :=
  ⟨[⟨1, 1, []⟩, ⟨2, 2, []⟩, ⟨3, 1, []⟩], [1], [], []⟩

/-- Concrete store for the C2 witness: objects 1 and 3 exist, object 2 is
requested but absent. -/
def w2State : DelState :=
  ⟨[⟨1, 1, []⟩, ⟨3, 1, []⟩], [1], [], []⟩

/- ------------------------------------------------------------------ -/
/- Theorems                                                           -/
/- ------------------------------------------------------------------ -/

theorem overwriteField_name (item old : ObjectField) :
    (overwriteField item old).name = old.name := by
  unfold overwriteField
  split <;> rfl

theorem mergeFields_nil (olds : List ObjectField) :
    mergeFields olds [] = olds := rfl

theorem mergeFields_cons (olds : List ObjectField) (it : ObjectField)
    (its : List ObjectField) :
    mergeFields olds (it :: its) =
      mergeFields (olds.map (overwriteField it)) its := rfl

theorem mergeFields_names (news olds : List ObjectField) :
    (mergeFields olds news).map (fun f => f.name) =
      olds.map (fun f => f.name) := by
  induction news generalizing olds with
  | nil => rfl
  | cons it its ih =>
      rw [mergeFields_cons, ih, List.map_map]
      exact List.map_congr_left fun old _ => overwriteField_name it old

theorem map_overwriteField_of_not_mem (it : ObjectField)
    (olds : List ObjectField)
    (h : it.name ∉ olds.map (fun f => f.name)) :
    olds.map (overwriteField it) = olds := by
  induction olds with
  | nil => rfl
  | cons o os ih =>
      simp only [List.map_cons, List.mem_cons, not_or] at h
      rw [List.map_cons, ih h.2]
      congr 1
      have hne : o.name ≠ it.name := fun hh => h.1 hh.symm
      simp [overwriteField, hne]

theorem sortedNames_eq_of_perm {l₁ l₂ : List String}
    (h : List.Perm l₁ l₂) : sortedNames l₁ = sortedNames l₂ := by
  apply List.eq_of_perm_of_sorted
    (r := fun a b : String => a ≤ b)
  · exact (List.perm_insertionSort _ _).trans
      (h.trans (List.perm_insertionSort _ _).symm)
  · exact List.sorted_insertionSort _ _
  · exact List.sorted_insertionSort _ _

/-- C1: the version bump tier of `update_object` is a pure function of the
changed-field count `c` and the field count `n` of the updated object,
decided as: one change bumps PATCH; else all-fields-changed bumps MAJOR;
else strictly more than half bumps MINOR; else PATCH.  The rational guard
`c > n / 2` coincides with the integer comparison `n < 2 * c`, so the tie
at exactly half (2 of 4) bumps PATCH, and a single change on a one-field
object bumps PATCH because the first rule precedes the second. -/
theorem bumpTier_spec (c n : Nat) :
    bumpTier c n =
      (if c = 1 then VersionTier.patch
       else if c = n then VersionTier.major
       else if n < 2 * c then VersionTier.minor
       else VersionTier.patch) ∧
    bumpTier 2 4 = VersionTier.patch ∧ bumpTier 1 1 = VersionTier.patch := by
  refine ⟨?_, by norm_num [bumpTier], by norm_num [bumpTier]⟩
  unfold bumpTier
  have h : ((n : ℚ) / 2 < (c : ℚ)) ↔ n < 2 * c := by
    rw [div_lt_iff₀ (by norm_num : (0 : ℚ) < 2)]
    constructor
    · intro h
      have : (n : ℚ) < ((2 * c : Nat) : ℚ) := by push_cast; linarith
      exact_mod_cast this
    · intro h
      have : ((n : Nat) : ℚ) < ((2 * c : Nat) : ℚ) := by exact_mod_cast h
      push_cast at this
      linarith
  simp only [h]

/-- C8: every object created through `insert_object` is stored with
version exactly "1.0.0", whatever version the caller supplied. -/
theorem insertObjectRoute_version (d : NewObjectData)
    (store : List StoredObject) (next_id : Nat)
    (res : List StoredObject × Nat)
    (hok : insertObjectRoute d store next_id = Except.ok res) :
    ∀ o ∈ res.1, o ∉ store → o.version = "1.0.0" := by
  intro o hmem hnot
  unfold insertObjectRoute at hok
  cases hd : d.public_id with
  | none =>
      rw [hd] at hok
      cases hok
      rcases List.mem_append.mp hmem with h | h
      · exact absurd h hnot
      · rcases List.mem_singleton.mp h with rfl
        rfl
  | some p =>
      rw [hd] at hok
      by_cases hex : store.any (fun o => o.public_id == p)
      · simp [hex] at hok
      · simp only [hex, if_neg, Bool.false_eq_true, not_false_iff,
          if_false] at hok
        cases hok
        rcases List.mem_append.mp hmem with h | h
        · exact absurd h hnot
        · rcases List.mem_singleton.mp h with rfl
          rfl

/-- C8 witness: a caller posting version "7.7.7" still gets an object
stored with version "1.0.0". -/
theorem insertObjectRoute_version_witness :
    (⟨5, false, 0, "1.0.0", 1⟩ : StoredObject).version = "1.0.0" :=
  insertObjectRoute_version ⟨some 5, some false, some "7.7.7", 1⟩ [] 9
    ([⟨5, false, 0, "1.0.0", 1⟩], 5) rfl
    ⟨5, false, 0, "1.0.0", 1⟩ (by decide) (by decide)

/-- C10: calling the user delete with public_id 1 returns
ManagerDeleteError and leaves the user store unchanged, for every store —
the admin check precedes the lookup and the store deletion. -/
theorem userDelete_admin_protected (store : List UserRec) :
    userDelete 1 store =
      (Except.error UserManagerError.managerDeleteError, store) := by
  simp [userDelete]

/-- C9: the `update_object` merge only overwrites values of
identically-named fields already present on the rendered current object;
the name list (hence the field-name set) of the persisted field list
equals that of the rendered current object, and a payload consisting only
of unknown field names is discarded entirely. -/
theorem mergeFields_frame (olds news : List ObjectField) :
    ((mergeFields olds news).map (fun f => f.name) =
      olds.map (fun f => f.name)) ∧
    ((∀ it ∈ news, it.name ∉ olds.map (fun f => f.name)) →
      mergeFields olds news = olds) := by
  refine ⟨mergeFields_names news olds, ?_⟩
  induction news with
  | nil => intro _; rfl
  | cons it its ih =>
      intro h
      rw [mergeFields_cons,
        map_overwriteField_of_not_mem it olds (h it (List.mem_cons_self it its))]
      exact ih fun j hj => h j (List.mem_cons_of_mem it hj)

/-- C9 witness: a payload field named "b" against an object whose only
field is named "a" is silently discarded. -/
theorem mergeFields_frame_witness :
    mergeFields [⟨"a", FieldValue.vint 1⟩] [⟨"b", FieldValue.vint 2⟩] =
      [⟨"a", FieldValue.vint 1⟩] :=
  (mergeFields_frame [⟨"a", FieldValue.vint 1⟩]
    [⟨"b", FieldValue.vint 2⟩]).2 (by decide)

/-- C6: `get_unstructured_objects` returns exactly the stored objects of
the type whose sorted field-name list differs from the type's sorted
field-name list; in particular an object whose field names are a
permutation of the type's field names is not reported. -/
theorem getUnstructuredObjects_spec (typeFields : List TypeField)
    (store : List CmdbObjectRec) (pid : Nat) :
    (∀ o, o ∈ getUnstructuredObjects typeFields store pid ↔
       o ∈ store ∧ o.type_id = pid ∧
       sortedNames (o.fields.map (fun f => f.name)) ≠
         sortedNames (typeFields.map (fun f => f.name))) ∧
    (∀ o ∈ store, o.type_id = pid →
       List.Perm (o.fields.map (fun f => f.name))
         (typeFields.map (fun f => f.name)) →
       o ∉ getUnstructuredObjects typeFields store pid) := by
  constructor
  · intro o
    unfold getUnstructuredObjects
    simp only [List.mem_filter, Bool.not_eq_true', beq_eq_false_iff_ne,
      ne_eq, beq_iff_eq, and_assoc]
  · intro o _ hty hperm hmem
    unfold getUnstructuredObjects at hmem
    simp only [List.mem_filter, Bool.not_eq_true', beq_eq_false_iff_ne,
      ne_eq, beq_iff_eq] at hmem
    exact hmem.2 (sortedNames_eq_of_perm hperm)

/-- C6 witness: an object whose field names ["b", "a"] permute the type's
field names ["a", "b"] is not reported as unstructured. -/
theorem getUnstructuredObjects_spec_witness :
    (⟨7, 3, [⟨"b", FieldValue.vnull⟩, ⟨"a", FieldValue.vnull⟩]⟩ :
      CmdbObjectRec) ∉
      getUnstructuredObjects [⟨"a", none⟩, ⟨"b", none⟩]
        [⟨7, 3, [⟨"b", FieldValue.vnull⟩, ⟨"a", FieldValue.vnull⟩]⟩] 3 :=
  (getUnstructuredObjects_spec [⟨"a", none⟩, ⟨"b", none⟩]
    [⟨7, 3, [⟨"b", FieldValue.vnull⟩, ⟨"a", FieldValue.vnull⟩]⟩] 3).2
    _ (by decide) (by decide) (by decide)


theorem mem_repairCorrect (tf : List TypeField) (of : List ObjectField)
    (x : String) :
    x ∈ repairCorrect tf of ↔
      (∃ f ∈ of, f.name = x) ∧ (∃ t ∈ tf, t.name = x) := by
  simp only [repairCorrect, List.mem_flatMap, List.mem_map, List.mem_filter,
    beq_iff_eq]
  constructor
  · rintro ⟨t, ht, f, ⟨⟨hf, hname⟩, rfl⟩⟩
    exact ⟨⟨f, hf, rfl⟩, ⟨t, ht, hname.symm⟩⟩
  · rintro ⟨⟨f, hf, rfl⟩, ⟨t, ht, hname⟩⟩
    exact ⟨t, ht, f, ⟨⟨hf, hname.symm⟩, rfl⟩⟩

theorem mem_repairIncorrect (tf : List TypeField) (of : List ObjectField)
    (x : String) :
    x ∈ repairIncorrect tf of ↔
      ∃ t ∈ tf, ∃ f ∈ of, f.name ≠ t.name ∧ f.name = x := by
  simp only [repairIncorrect, List.mem_flatMap, List.mem_map, List.mem_filter,
    Bool.not_eq_true', beq_eq_false_iff_ne, ne_eq]
  constructor
  · rintro ⟨t, ht, f, ⟨⟨hf, hname⟩, rfl⟩⟩
    exact ⟨t, ht, f, hf, hname, rfl⟩
  · rintro ⟨t, ht, f, hf, hname, rfl⟩
    exact ⟨t, ht, f, ⟨⟨hf, hname⟩, rfl⟩⟩

theorem mem_repairRemoved (tf : List TypeField) (of : List ObjectField)
    (h : tf ≠ []) (x : String) :
    x ∈ repairRemoved tf of ↔
      (∃ f ∈ of, f.name = x) ∧ ¬(∃ t ∈ tf, t.name = x) := by
  unfold repairRemoved
  rw [List.mem_filter]
  have hcont : ((!(repairCorrect tf of).contains x) = true) ↔
      x ∉ repairCorrect tf of := by simp
  rw [hcont, mem_repairIncorrect, mem_repairCorrect]
  constructor
  · rintro ⟨⟨t, ht, f, hf, _, rfl⟩, hnc⟩
    exact ⟨⟨f, hf, rfl⟩, fun hxt => hnc ⟨⟨f, hf, rfl⟩, hxt⟩⟩
  · rintro ⟨⟨f, hf, rfl⟩, hxt⟩
    obtain ⟨t, ht⟩ := List.exists_mem_of_ne_nil tf h
    have htn : f.name ≠ t.name := fun hh => hxt ⟨t, ht, hh.symm⟩
    exact ⟨⟨t, ht, f, hf, htn, rfl⟩, fun hc => hxt hc.2⟩

theorem mem_names_repairPhase1 (tf : List TypeField) (of : List ObjectField)
    (h : tf ≠ []) (x : String) :
    (∃ f ∈ repairPhase1 tf of, f.name = x) ↔
      (∃ f ∈ of, f.name = x) ∧ (∃ t ∈ tf, t.name = x) := by
  unfold repairPhase1
  simp only [List.mem_filter, Bool.not_eq_true']
  constructor
  · rintro ⟨f, ⟨hf, hnc⟩, rfl⟩
    have hnotrem : f.name ∉ repairRemoved tf of := by
      intro hmem
      have := List.elem_iff.mpr hmem
      rw [List.contains] at hnc
      rw [this] at hnc
      exact Bool.true_eq_false.mp hnc
    rw [mem_repairRemoved tf of h] at hnotrem
    push_neg at hnotrem
    have := hnotrem ⟨f, hf, rfl⟩
    push_neg at this
    exact ⟨⟨f, hf, rfl⟩, this⟩
  · rintro ⟨⟨f, hf, rfl⟩, hxt⟩
    refine ⟨f, ⟨hf, ?_⟩, rfl⟩
    have hnotrem : f.name ∉ repairRemoved tf of := by
      rw [mem_repairRemoved tf of h]
      rintro ⟨_, hnot⟩
      exact hnot hxt
    have : (repairRemoved tf of).contains f.name = false := by
      simpa using hnotrem
    simpa using this

theorem mem_names_repairPhase2_aux (base : List ObjectField) :
    ∀ (tf : List TypeField) (acc : List ObjectField),
      (∀ y, (∃ f ∈ base, f.name = y) → (∃ f ∈ acc, f.name = y)) →
      ∀ x, (∃ f ∈ tf.foldl (repairStep base) acc, f.name = x) ↔
        ((∃ f ∈ acc, f.name = x) ∨ (∃ t ∈ tf, t.name = x)) := by
  intro tf
  induction tf with
  | nil => intro acc _ x; simp
  | cons t ts ih =>
      intro acc hinv x
      rw [List.foldl_cons]
      have hsub : ∀ y, (∃ f ∈ acc, f.name = y) →
          (∃ f ∈ repairStep base acc t, f.name = y) := by
        intro y hy
        unfold repairStep addToSetField
        split
        · exact hy
        · split
          · exact hy
          · obtain ⟨f, hf, rfl⟩ := hy
            exact ⟨f, List.mem_append.mpr (Or.inl hf), rfl⟩
      have hinv' : ∀ y, (∃ f ∈ base, f.name = y) →
          (∃ f ∈ repairStep base acc t, f.name = y) :=
        fun y hy => hsub y (hinv y hy)
      rw [ih (repairStep base acc t) hinv' x]
      have hstep : (∃ f ∈ repairStep base acc t, f.name = x) ↔
          ((∃ f ∈ acc, f.name = x) ∨ x = t.name) := by
        constructor
        · intro hy
          unfold repairStep addToSetField at hy
          by_cases hany : base.any (fun f => f.name == t.name)
          · rw [if_pos hany] at hy
            exact Or.inl hy
          · rw [if_neg hany] at hy
            by_cases hcon :
                acc.contains (⟨t.name, t.default.getD FieldValue.vnull⟩ :
                  ObjectField)
            · rw [if_pos hcon] at hy
              exact Or.inl hy
            · rw [if_neg hcon] at hy
              obtain ⟨f, hf, rfl⟩ := hy
              rcases List.mem_append.mp hf with hf' | hf'
              · exact Or.inl ⟨f, hf', rfl⟩
              · rcases List.mem_singleton.mp hf' with rfl
                exact Or.inr rfl
        · rintro (hy | rfl)
          · exact hsub x hy
          · by_cases hany : base.any (fun f => f.name == t.name)
            · obtain ⟨f, hf, hn⟩ := List.any_eq_true.mp hany
              exact hsub t.name (hinv t.name ⟨f, hf, beq_iff_eq.mp hn⟩)
            · by_cases hcon :
                  acc.contains (⟨t.name, t.default.getD FieldValue.vnull⟩ :
                    ObjectField)
              · have hmem := List.elem_iff.mp hcon
                exact hsub t.name ⟨_, hmem, rfl⟩
              · refine ⟨⟨t.name, t.default.getD FieldValue.vnull⟩, ?_, rfl⟩
                unfold repairStep addToSetField
                rw [if_neg hany, if_neg hcon]
                exact List.mem_append.mpr (Or.inr (List.mem_singleton.mpr rfl))
      rw [hstep]
      simp only [List.mem_cons]
      constructor
      · rintro ((hy | rfl) | hts)
        · exact Or.inl hy
        · exact Or.inr ⟨t, Or.inl rfl, rfl⟩
        · obtain ⟨u, hu, rfl⟩ := hts
          exact Or.inr ⟨u, Or.inr hu, rfl⟩
      · rintro (hy | ⟨u, (rfl | hu), rfl⟩)
        · exact Or.inl (Or.inl hy)
        · exact Or.inl (Or.inr rfl)
        · exact Or.inr ⟨u, hu, rfl⟩

theorem mem_names_repairPhase2 (tf : List TypeField)
    (base : List ObjectField) (x : String) :
    (∃ f ∈ repairPhase2 tf base, f.name = x) ↔
      (∃ f ∈ base, f.name = x) ∨ (∃ t ∈ tf, t.name = x) :=
  mem_names_repairPhase2_aux base tf base (fun _ hy => hy) x

/-- C7 (amended): when the type has at least one field,
`update_unstructured_objects` rewrites every stored object of the type by
the two repair passes, and afterwards each such object's field-name set
equals the type's field-name set: names absent from the type are removed
and missing type fields are added with the type's default value.  (The
claim as stated fails for a type with no fields: then nothing is removed,
see the counterexample.) -/
theorem updateUnstructuredObjects_spec (tf : List TypeField)
    (store : List CmdbObjectRec) (pid : Nat) (h : tf ≠ []) :
    (updateUnstructuredObjects tf store pid =
      store.map (fun o =>
        if o.type_id == pid then { o with fields := repairObject tf o.fields }
        else o)) ∧
    (∀ o ∈ store, ∀ x,
      x ∈ (repairObject tf o.fields).map (fun f => f.name) ↔
        x ∈ tf.map (fun f => f.name)) := by
  constructor
  · unfold updateUnstructuredObjects
    rw [List.map_map]
    apply List.map_congr_left
    intro o _
    by_cases ht : o.type_id = pid
    · simp [Function.comp_def, ht, repairObject]
    · simp [Function.comp_def, ht]
  · intro o _ x
    unfold repairObject
    simp only [List.mem_map]
    rw [mem_names_repairPhase2 tf (repairPhase1 tf o.fields) x,
      mem_names_repairPhase1 tf o.fields h x]
    tauto

/-- C7 counterexample: for a type with no fields at all, the repair route
leaves an object carrying a field "a" untouched, so its field-name set
still differs from the (empty) type field-name set after Repair. -/
theorem updateUnstructuredObjects_counterexample :
    updateUnstructuredObjects [] [⟨7, 3, [⟨"a", FieldValue.vnull⟩]⟩] 3 =
      [⟨7, 3, [⟨"a", FieldValue.vnull⟩]⟩] ∧
    "a" ∉ ([] : List TypeField).map (fun f => f.name) := by
  decide

/-- C7 witness: a one-field type repairs an object with a stray field so
that the type's field name is present afterwards. -/
theorem updateUnstructuredObjects_spec_witness :
    "name" ∈ (repairObject [⟨"name", none⟩] [⟨"a", FieldValue.vnull⟩]).map
      (fun f => f.name) :=
  ((updateUnstructuredObjects_spec [⟨"name", none⟩]
      [⟨7, 3, [⟨"a", FieldValue.vnull⟩]⟩] 3 (by decide)).2
    ⟨7, 3, [⟨"a", FieldValue.vnull⟩]⟩ (by decide) "name").mpr (by decide)

theorem mem_foldl_append {α β : Type} (g : β → List α) (l : List β)
    (x : α) : ∀ acc : List α,
    (x ∈ l.foldl (fun acc p => acc ++ g p) acc ↔
      x ∈ acc ∨ ∃ p ∈ l, x ∈ g p) := by
  induction l with
  | nil => intro acc; simp
  | cons p ps ih =>
      intro acc
      rw [List.foldl_cons, ih (acc ++ g p)]
      simp only [List.mem_append, List.mem_cons]
      constructor
      · rintro ((hx | hx) | ⟨q, hq, hx⟩)
        · exact Or.inl hx
        · exact Or.inr ⟨p, Or.inl rfl, hx⟩
        · exact Or.inr ⟨q, Or.inr hq, hx⟩
      · rintro (hx | ⟨q, (rfl | hq), hx⟩)
        · exact Or.inl (Or.inl hx)
        · exact Or.inl (Or.inr hx)
        · exact Or.inr ⟨q, hq, hx⟩

/-- C5 (amended): backward reference resolution collects, for each type
schema, the FIRST reference field (in schema order) whose allowed-target
list contains the queried object's type, and returns exactly the stored
objects of such a type whose value of that particular field equals the
queried identifier in numeric or string form.  Reference fields after the
first matching one on the same type are not consulted (see the
counterexample). -/
theorem get_object_references_spec (pid : Nat) (s : RefState)
    (obj : CmdbObjectRec)
    (hobj : s.objects.find? (fun o => o.public_id == pid) = some obj)
    (l : List CmdbObjectRec)
    (hl : get_object_references pid s = Except.ok l) :
    ∀ o, o ∈ l ↔ ∃ t ∈ s.types, ∃ f,
      get_field_of_type_with_value t obj.type_id = some f ∧
      o ∈ s.objects ∧ refObjectMatches t.public_id f.name pid o = true := by
  intro o
  unfold get_object_references at hl
  rw [hobj] at hl
  cases hl
  rw [mem_foldl_append]
  simp only [List.not_mem_nil, false_or, List.mem_filterMap,
    Option.map_eq_some']
  constructor
  · rintro ⟨p, ⟨t, ht, f, hf, rfl⟩, hx⟩
    rw [(List.perm_insertionSort _ _).mem_iff, List.mem_filter] at hx
    exact ⟨t, (List.mem_filter.mp ht).1, f, hf, hx.1, hx.2⟩
  · rintro ⟨t, ht, f, hf, ho, hmatch⟩
    have hf' : t.fields.find? (fun f =>
        f.ftype == "ref" && f.ref_types.contains obj.type_id) = some f := hf
    refine ⟨(t.public_id, f.name), ⟨t, ?_, f, hf, rfl⟩, ?_⟩
    · rw [List.mem_filter]
      refine ⟨ht, List.any_eq_true.mpr ⟨f, ?_, ?_⟩⟩
      · exact List.mem_of_find?_eq_some hf'
      · have hp := List.find?_some hf'
        simpa using hp
    · rw [(List.perm_insertionSort _ _).mem_iff, List.mem_filter]
      exact ⟨ho, hmatch⟩

/-- C5 counterexample: type 10 has two reference fields targeting type
20, `rack` first and `backup` second; object 5 references object 7 (of
type 20) through `backup` only.  The claim demands that object 5 be in
the result, but the route consults only the first matching field `rack`,
so the result is empty. -/
theorem get_object_references_counterexample :
    (⟨"backup", "ref", [20]⟩ : SchemaField) ∈
      (⟨10, [⟨"rack", "ref", [20]⟩, ⟨"backup", "ref", [20]⟩]⟩ :
        TypeSchema).fields ∧
    (⟨"backup", FieldValue.vint 7⟩ : ObjectField) ∈
      (⟨5, 10, [⟨"rack", FieldValue.vint 1⟩,
        ⟨"backup", FieldValue.vint 7⟩]⟩ : CmdbObjectRec).fields ∧
    get_object_references 7
      ⟨[⟨5, 10, [⟨"rack", FieldValue.vint 1⟩,
          ⟨"backup", FieldValue.vint 7⟩]⟩,
        ⟨7, 20, []⟩],
       [⟨10, [⟨"rack", "ref", [20]⟩, ⟨"backup", "ref", [20]⟩]⟩]⟩ =
      Except.ok [] := by
  refine ⟨by decide, by decide, ?_⟩
  rfl

/-- C5 witness: the spec's own example — type Server (10) with single
reference field `rack` targeting Rack (20), and server 5 with rack = 7 —
resolves backward from object 7 to include server 5. -/
theorem get_object_references_spec_witness :
    (⟨5, 10, [⟨"rack", FieldValue.vint 7⟩]⟩ : CmdbObjectRec) ∈
      [(⟨5, 10, [⟨"rack", FieldValue.vint 7⟩]⟩ : CmdbObjectRec)] :=
  (get_object_references_spec 7
    ⟨[⟨5, 10, [⟨"rack", FieldValue.vint 7⟩]⟩, ⟨7, 20, []⟩],
     [⟨10, [⟨"rack", "ref", [20]⟩]⟩]⟩
    ⟨7, 20, []⟩ rfl
    [⟨5, 10, [⟨"rack", FieldValue.vint 7⟩]⟩] rfl
    ⟨5, 10, [⟨"rack", FieldValue.vint 7⟩]⟩).mpr
    ⟨⟨10, [⟨"rack", "ref", [20]⟩]⟩, by decide,
     ⟨"rack", "ref", [20]⟩, rfl, by decide, by decide⟩

/-- C3 (amended): when the object exists, its type exists, and its bound
location has a child location, `delete_object` answers 405 and deletes
neither the object nor any location — but the object's links (and its
references) have already been removed before the child check, so the
store is not left unchanged. -/
theorem deleteObjectRoute_refusal (pid : Nat) (s : DelState)
    (obj : CmdbObjectRec) (loc child : LocationRec)
    (hobj : s.objects.find? (fun o => o.public_id == pid) = some obj)
    (hty : s.types.contains obj.type_id = true)
    (hloc : getLocationForObject pid s.locations = some loc)
    (hchild : getChildByParent loc.public_id s.locations = some child) :
    deleteObjectRoute pid s =
      (RouteResult.err 405,
       { s with links :=
           (s.links.filter
             (fun l => !(l.primary == pid || l.secondary == pid))) },
       (s.links.filter
           (fun l => l.primary == pid || l.secondary == pid)).map
           (fun l => DelEv.delLink l.public_id) ++ [DelEv.delRefs pid]) ∧
    (deleteObjectRoute pid s).2.1.objects = s.objects ∧
    (deleteObjectRoute pid s).2.1.locations = s.locations := by
  have h1 : deleteObjectRoute pid s =
      (RouteResult.err 405,
       { s with links :=
           (s.links.filter
             (fun l => !(l.primary == pid || l.secondary == pid))) },
       (s.links.filter
           (fun l => l.primary == pid || l.secondary == pid)).map
           (fun l => DelEv.delLink l.public_id) ++ [DelEv.delRefs pid]) := by
    unfold deleteObjectRoute
    rw [hobj]
    dsimp only
    rw [hty, hloc]
    dsimp only
    rw [hchild]
    rfl
  exact ⟨h1, by rw [h1], by rw [h1]⟩

/-- C3 counterexample: object 5's location 10 has child location 11, so
the delete is refused with 405, but the request is not free of deletions:
the object link 100 has been removed from the store, so the state is
changed on this error. -/
theorem deleteObjectRoute_counterexample :
    (deleteObjectRoute 5 c3State).1 = RouteResult.err 405 ∧
    (deleteObjectRoute 5 c3State).2.1 ≠ c3State ∧
    (deleteObjectRoute 5 c3State).2.1.links = [] ∧
    c3State.links = [⟨100, 5, 6⟩] := by decide

/-- C3 witness: the refusal characterization evaluated on the concrete
store with a child location. -/
theorem deleteObjectRoute_refusal_witness :
    deleteObjectRoute 5 c3State =
      (RouteResult.err 405,
       ⟨[⟨5, 1, []⟩, ⟨6, 1, []⟩], [1], [⟨10, 1, 5⟩, ⟨11, 10, 6⟩], []⟩,
       [DelEv.delLink 100, DelEv.delRefs 5]) :=
  ((deleteObjectRoute_refusal 5 c3State ⟨5, 1, []⟩ ⟨10, 1, 5⟩ ⟨11, 10, 6⟩
    rfl rfl rfl rfl).1).trans (by decide)


theorem takeWhile_append_all {α : Type} (p : α → Bool) (xs ys : List α)
    (h : ∀ a ∈ xs, p a = true) :
    (xs ++ ys).takeWhile p = xs ++ ys.takeWhile p := by
  induction xs with
  | nil => simp
  | cons a as ih =>
      rw [List.cons_append, List.takeWhile_cons,
        if_pos (h a (List.mem_cons_self a as)),
        ih (fun b hb => h b (List.mem_cons_of_mem a hb)), List.cons_append]

theorem trace_load_count (A B C : List DelEv) (pid lid : Nat)
    (hA : ∀ e ∈ A, ∃ i, e = DelEv.delLink i)
    (hB : ∀ e ∈ B, ∃ i, e = DelEv.delLoc i)
    (hC : ∀ e ∈ C, ∃ i, e = DelEv.delObj i) :
    ((A ++ [DelEv.delRefs pid] ++ [DelEv.loadLocations] ++ B ++ C ++
        [DelEv.delLoc lid, DelEv.delObj pid]).filter
      (fun e => e == DelEv.loadLocations)).length = 1 := by
  have fA : A.filter (fun e => e == DelEv.loadLocations) = [] := by
    rw [List.filter_eq_nil_iff]
    intro e he
    obtain ⟨i, rfl⟩ := hA e he
    simp
  have fB : B.filter (fun e => e == DelEv.loadLocations) = [] := by
    rw [List.filter_eq_nil_iff]
    intro e he
    obtain ⟨i, rfl⟩ := hB e he
    simp
  have fC : C.filter (fun e => e == DelEv.loadLocations) = [] := by
    rw [List.filter_eq_nil_iff]
    intro e he
    obtain ⟨i, rfl⟩ := hC e he
    simp
  simp only [List.filter_append, fA, fB, fC]
  rfl

theorem trace_prefix_clean (A B C : List DelEv) (pid lid : Nat)
    (hA : ∀ e ∈ A, ∃ i, e = DelEv.delLink i) :
    ((A ++ [DelEv.delRefs pid] ++ [DelEv.loadLocations] ++ B ++ C ++
        [DelEv.delLoc lid, DelEv.delObj pid]).takeWhile
      (fun e => !(e == DelEv.loadLocations))).all
      (fun e => !(isStructuralDeletionEv e)) = true := by
  simp only [List.append_assoc]
  rw [takeWhile_append_all _ A]
  · rw [takeWhile_append_all _ [DelEv.delRefs pid]]
    · rw [show ([DelEv.loadLocations] ++
          (B ++ (C ++ [DelEv.delLoc lid, DelEv.delObj pid]))).takeWhile
          (fun e => !(e == DelEv.loadLocations)) = [] from rfl]
      rw [List.all_append]
      refine Bool.and_eq_true_iff.mpr ⟨?_, ?_⟩
      · rw [List.all_eq_true]
        intro e he
        obtain ⟨i, rfl⟩ := hA e he
        rfl
      · rfl
    · intro a ha
      rcases List.mem_singleton.mp ha with rfl
      rfl
  · intro a ha
    obtain ⟨i, rfl⟩ := hA a ha
    rfl

theorem trace_last_is_target (X : List DelEv) (pid lid : Nat) :
    (X ++ [DelEv.delLoc lid, DelEv.delObj pid]).getLast? =
      some (DelEv.delObj pid) := by
  rw [List.getLast?_append_of_ne_nil X (by simp)]
  rfl

/-- C4 (amended): when the object and its bound location exist,
`delete_object_with_child_objects` first removes the object's links and
its references; only then the one-shot location snapshot is loaded,
exactly once, and every location and object deletion happens after that
load: each descendant location of the bound location is deleted, then
each descendant's bound object, then the target's own location, and the
target object is deleted last.  The claim's "snapshot loaded before any
deletion I/O" fails only for the link/reference cleanup, which precedes
the load (see the counterexample). -/
theorem deleteObjectWithChildObjects_spec (pid : Nat) (s : DelState)
    (obj : CmdbObjectRec) (loc : LocationRec)
    (hobj : s.objects.find? (fun o => o.public_id == pid) = some obj)
    (hloc : getLocationForObject pid s.locations = some loc) :
    ((deleteObjectWithChildObjectsRoute pid s).2.2 =
      (s.links.filter (fun l => l.primary == pid || l.secondary == pid)).map
          (fun l => DelEv.delLink l.public_id) ++
        [DelEv.delRefs pid] ++ [DelEv.loadLocations] ++
        (get_all_children loc.public_id
          (s.locations.filter (fun l => 1 < l.public_id))).map
          (fun c => DelEv.delLoc c.public_id) ++
        ((get_all_children loc.public_id
          (s.locations.filter (fun l => 1 < l.public_id))).map
          (fun c => c.object_id)).map (fun i => DelEv.delObj i) ++
        [DelEv.delLoc loc.public_id, DelEv.delObj pid]) ∧
    ((deleteObjectWithChildObjectsRoute pid s).2.2.filter
        (fun e => e == DelEv.loadLocations)).length = 1 ∧
    ((deleteObjectWithChildObjectsRoute pid s).2.2.takeWhile
        (fun e => !(e == DelEv.loadLocations))).all
        (fun e => !(isStructuralDeletionEv e)) = true ∧
    (deleteObjectWithChildObjectsRoute pid s).2.2.getLast? =
        some (DelEv.delObj pid) ∧
    (deleteObjectWithChildObjectsRoute pid s).1 = RouteResult.ok := by
  have h1 : (deleteObjectWithChildObjectsRoute pid s).2.2 =
      (s.links.filter (fun l => l.primary == pid || l.secondary == pid)).map
          (fun l => DelEv.delLink l.public_id) ++
        [DelEv.delRefs pid] ++ [DelEv.loadLocations] ++
        (get_all_children loc.public_id
          (s.locations.filter (fun l => 1 < l.public_id))).map
          (fun c => DelEv.delLoc c.public_id) ++
        ((get_all_children loc.public_id
          (s.locations.filter (fun l => 1 < l.public_id))).map
          (fun c => c.object_id)).map (fun i => DelEv.delObj i) ++
        [DelEv.delLoc loc.public_id, DelEv.delObj pid] := by
    unfold deleteObjectWithChildObjectsRoute
    rw [hobj]
    dsimp only
    rw [hloc]
  have h5 : (deleteObjectWithChildObjectsRoute pid s).1 = RouteResult.ok := by
    unfold deleteObjectWithChildObjectsRoute
    rw [hobj]
    dsimp only
    rw [hloc]
  have hA : ∀ e ∈ (s.links.filter
      (fun l => l.primary == pid || l.secondary == pid)).map
      (fun l => DelEv.delLink l.public_id), ∃ i, e = DelEv.delLink i := by
    intro e he
    obtain ⟨l, _, rfl⟩ := List.mem_map.mp he
    exact ⟨l.public_id, rfl⟩
  have hB : ∀ e ∈ (get_all_children loc.public_id
      (s.locations.filter (fun l => 1 < l.public_id))).map
      (fun c => DelEv.delLoc c.public_id), ∃ i, e = DelEv.delLoc i := by
    intro e he
    obtain ⟨c, _, rfl⟩ := List.mem_map.mp he
    exact ⟨c.public_id, rfl⟩
  have hC : ∀ e ∈ ((get_all_children loc.public_id
      (s.locations.filter (fun l => 1 < l.public_id))).map
      (fun c => c.object_id)).map (fun i => DelEv.delObj i),
      ∃ i, e = DelEv.delObj i := by
    intro e he
    obtain ⟨c, _, rfl⟩ := List.mem_map.mp he
    exact ⟨c, rfl⟩
  refine ⟨h1, ?_, ?_, ?_, h5⟩
  · rw [h1]
    exact trace_load_count _ _ _ pid loc.public_id hA hB hC
  · rw [h1]
    exact trace_prefix_clean _ _ _ pid loc.public_id hA
  · rw [h1]
    exact trace_last_is_target _ pid loc.public_id

/-- C4 counterexample: on the concrete store the route's trace begins
with the deletion of object link 100 — deletion I/O that happens before
the single loadLocations snapshot event — refuting "loaded once before
any deletion I/O occurs". -/
theorem deleteObjectWithChildObjects_counterexample :
    (deleteObjectWithChildObjectsRoute 5 c4State).2.2 =
      [DelEv.delLink 100, DelEv.delRefs 5, DelEv.loadLocations,
       DelEv.delLoc 11, DelEv.delObj 6, DelEv.delLoc 10, DelEv.delObj 5] ∧
    (deleteObjectWithChildObjectsRoute 5 c4State).2.2.head? =
      some (DelEv.delLink 100) ∧
    isDeletionEv (DelEv.delLink 100) = true := by decide

/-- C4 witness: the snapshot is loaded exactly once on the concrete
store. -/
theorem deleteObjectWithChildObjects_spec_witness :
    ((deleteObjectWithChildObjectsRoute 5 c4State).2.2.filter
        (fun e => e == DelEv.loadLocations)).length = 1 :=
  (deleteObjectWithChildObjects_spec 5 c4State ⟨5, 1, []⟩ ⟨10, 1, 5⟩
    rfl rfl).2.1

theorem deleteManyLoop_ok (objs : List CmdbObjectRec) :
    ∀ (s : DelState) (ack : List Nat),
      (∀ o ∈ objs, s.types.contains o.type_id = true) →
      ∃ s', deleteManyLoop objs s ack =
          DelManyResult.ok (ack ++ objs.map (fun o => o.public_id)) s' ∧
        s'.objects = s.objects.filter
          (fun x => !((objs.map (fun o => o.public_id)).contains
            x.public_id)) ∧
        s'.types = s.types ∧ s'.locations = s.locations := by
  induction objs with
  | nil =>
      intro s ack _
      refine ⟨s, by simp [deleteManyLoop], by simp, rfl, rfl⟩
  | cons o rest ih =>
      intro s ack h
      have hty := h o (List.mem_cons_self o rest)
      have hstep : deleteManyLoop (o :: rest) s ack =
          deleteManyLoop rest
            ⟨(s.objects.filter (fun x => !(x.public_id == o.public_id))),
             s.types, s.locations,
             (s.links.filter (fun l =>
               !(l.primary == o.public_id || l.secondary == o.public_id)))⟩
            (ack ++ [o.public_id]) := by
        conv_lhs => unfold deleteManyLoop
        dsimp only
        rw [hty]
        rfl
      obtain ⟨s', hrun, hobjs, htys, hlocs⟩ := ih
        ⟨(s.objects.filter (fun x => !(x.public_id == o.public_id))),
         s.types, s.locations,
         (s.links.filter (fun l =>
           !(l.primary == o.public_id || l.secondary == o.public_id)))⟩
        (ack ++ [o.public_id])
        (fun o' ho' => h o' (List.mem_cons_of_mem o ho'))
      refine ⟨s', ?_, ?_, htys, hlocs⟩
      · rw [hstep, hrun]
        simp
      · rw [hobjs]
        dsimp only
        rw [List.filter_filter]
        apply List.filter_congr
        intro x _
        simp only [List.map_cons, List.contains_cons, Bool.not_or,
          Bool.not_eq_true']
        exact Bool.and_comm _ _

/-- C2 (amended): when every requested object that exists has an
existing type and no bound location, `delete_many_objects` deletes
exactly the requested objects present in the store and responds with
only their acknowledgment list — requested ids that match no object are
skipped silently, producing N−1 successes and NO failure entry.  A
failure while processing one object (e.g. its type is missing) instead
aborts the whole request with an HTTP error, leaving later objects
undeleted (see the counterexample). -/
theorem deleteManyObjects_spec (ids : List Nat) (s : DelState)
    (hnoloc : ∀ o ∈ s.objects, ids.contains o.public_id = true →
      getLocationForObject o.public_id s.locations = none)
    (htypes : ∀ o ∈ s.objects, ids.contains o.public_id = true →
      s.types.contains o.type_id = true) :
    ∃ s', deleteManyObjectsRoute ids s =
        DelManyResult.ok
          (((s.objects.filter
              (fun o => ids.contains o.public_id)).insertionSort
              (fun a b => a.public_id ≤ b.public_id)).map
            (fun o => o.public_id)) s' ∧
      s'.objects = s.objects.filter (fun x =>
        !((((s.objects.filter
              (fun o => ids.contains o.public_id)).insertionSort
              (fun a b => a.public_id ≤ b.public_id)).map
            (fun o => o.public_id)).contains x.public_id)) ∧
      s'.types = s.types ∧ s'.locations = s.locations := by
  have hmem : ∀ o ∈ (s.objects.filter
      (fun o => ids.contains o.public_id)).insertionSort
      (fun a b => a.public_id ≤ b.public_id),
      o ∈ s.objects ∧ ids.contains o.public_id = true := by
    intro o ho
    rw [(List.perm_insertionSort _ _).mem_iff, List.mem_filter] at ho
    exact ho
  have hany : ((s.objects.filter
      (fun o => ids.contains o.public_id)).insertionSort
      (fun a b => a.public_id ≤ b.public_id)).any
      (fun o => (getLocationForObject o.public_id s.locations).isSome) =
      false := by
    rw [List.any_eq_false]
    intro o ho
    rw [hnoloc o (hmem o ho).1 (hmem o ho).2]
    simp
  obtain ⟨s', hrun, hobjs, htys, hlocs⟩ := deleteManyLoop_ok
    ((s.objects.filter (fun o => ids.contains o.public_id)).insertionSort
      (fun a b => a.public_id ≤ b.public_id)) s []
    (fun o ho => htypes o (hmem o ho).1 (hmem o ho).2)
  refine ⟨s', ?_, hobjs, htys, hlocs⟩
  simp only [deleteManyObjectsRoute]
  rw [hany]
  simpa using hrun

/-- C2 counterexample: ids 1, 2, 3 are requested and all three objects
exist, but object 2's type is missing; the route deletes object 1, then
aborts the whole request with HTTP 404 while processing object 2 — the
remaining deletion of object 3 never happens and no success/failure
result set is returned. -/
theorem deleteManyObjects_counterexample :
    deleteManyObjectsRoute [1, 2, 3] c2State =
      DelManyResult.err 404 ⟨[⟨2, 2, []⟩, ⟨3, 1, []⟩], [1], [], []⟩ ∧
    (⟨3, 1, []⟩ : CmdbObjectRec) ∈
      (⟨[⟨2, 2, []⟩, ⟨3, 1, []⟩], [1], [], []⟩ : DelState).objects := by
  decide

/-- C2 witness: object 2 of the requested ids 1, 2, 3 is absent from the
store; the route answers with the two successes 1 and 3 and no failure
entry. -/
theorem deleteManyObjects_spec_witness :
    ∃ s', deleteManyObjectsRoute [1, 2, 3] w2State =
      DelManyResult.ok [1, 3] s' := by
  obtain ⟨s', hrun, _, _, _⟩ :=
    deleteManyObjects_spec [1, 2, 3] w2State (by decide) (by decide)
  have he : ((w2State.objects.filter
      (fun o => ([1, 2, 3] : List Nat).contains o.public_id)).insertionSort
      (fun a b => a.public_id ≤ b.public_id)).map
      (fun o => o.public_id) = [1, 3] := by decide
  rw [he] at hrun
  exact ⟨s', hrun⟩
